import Mathlib

/-!
Verification development for the Lumina ESP32 bridge firmware
(`esp32-bridge/src/main.cpp`, `esp32-mqtt-bridge/src/main.cpp`).

The firmware's command path is embedded shallowly: JSON documents become an
inductive `Json` tree, the Firestore typed-value wire format becomes
`WireValue`, and the side-effecting functions (`executeCommand`,
`updateCommandStatus`, `pollCommands`, `processCommand`) become pure
functions returning explicit effect traces (status writes, device calls,
status publishes).
-/

namespace Lumina

/-- Plain JSON value tree, as built by ArduinoJson documents.
`num` carries exact integers; `numD` carries a floating literal textually
(no claim depends on float arithmetic, only on pass-through). -/
inductive Json where
  | null : Json
  | bool : Bool → Json
  | num : Int → Json
  | numD : String → Json
  | str : String → Json
  | arr : List Json → Json
  | obj : List (String × Json) → Json
deriving Repr

/-- A Firestore typed-value wire node: exactly one recognized tag
(`booleanValue`, `integerValue`, `doubleValue`, `stringValue`,
`arrayValue`, `mapValue`), or an unrecognized tag carrying raw JSON. -/
inductive WireValue where
  | boolV : Bool → WireValue
  | intV : Int → WireValue
  | doubleV : String → WireValue
  | stringV : String → WireValue
  | arrayV : List WireValue → WireValue
  | mapV : List (String × WireValue) → WireValue
  | unknown : String → Json → WireValue
deriving Repr

mutual

/-- The wire-format JSON of a typed value node (Firestore's own tagged
encoding; integers travel as strings, e.g. `"integerValue": "128"`). -/
def wireEncode : WireValue → Json
  | .boolV b => .obj [("booleanValue", .bool b)]
  | .intV n => .obj [("integerValue", .str (toString n))]
  | .doubleV d => .obj [("doubleValue", .numD d)]
  | .stringV s => .obj [("stringValue", .str s)]
  | .arrayV vs => .obj [("arrayValue", .obj [("values", .arr (wireEncodeList vs))])]
  | .mapV fs => .obj [("mapValue", .obj [("fields", .obj (wireEncodeFields fs))])]
  | .unknown tag raw => .obj [(tag, raw)]

def wireEncodeList : List WireValue → List Json
  | [] => []
  | v :: vs => wireEncode v :: wireEncodeList vs

def wireEncodeFields : List (String × WireValue) → List (String × Json)
  | [] => []
  | (k, v) :: fs => (k, wireEncode v) :: wireEncodeFields fs

end

/-- One payload field's conversion in `convertFirestorePayloadToJson`
(esp32-bridge main.cpp, lines 427-452): a scalar tag is erased; an
`arrayValue` or `mapValue` is passed through still in wire format
(`doc[key] = serialized(v.to<String>())`, the raw serialization of the
tag's contents); a field with no recognized tag is skipped. -/
def convertField : String × WireValue → Option (String × Json)
  | (k, .boolV b) => some (k, .bool b)
  | (k, .intV n) => some (k, .num n)
  | (k, .doubleV d) => some (k, .numD d)
  | (k, .stringV s) => some (k, .str s)
  | (k, .arrayV vs) => some (k, .obj [("values", .arr (wireEncodeList vs))])
  | (k, .mapV fs) => some (k, .obj [("fields", .obj (wireEncodeFields fs))])
  | (_, .unknown _ _) => none

/-- `convertFirestorePayloadToJson` (esp32-bridge main.cpp, lines 407-458):
returns `{}` when the command has no `payload/mapValue/fields`, otherwise
converts each payload field in order via `convertField`. -/
def convertFirestorePayloadToJson (payload : Option (List (String × WireValue))) : Json :=
  match payload with
  | none => Json.obj []
  | some fs => Json.obj (fs.filterMap convertField)

mutual

/-- Modelled from the spec (§4.1): the fully recursive tag-erasing
projection `toPlainJSON ∘ decode` that the spec mandates — arrays and
maps recurse element-by-element / field-by-field, unknown tags are
skipped. This is the spec-side definition used to compare against the
source's `convertFirestorePayloadToJson`. -/
def toPlainJSONRec : WireValue → Option Json
  | .boolV b => some (.bool b)
  | .intV n => some (.num n)
  | .doubleV d => some (.numD d)
  | .stringV s => some (.str s)
  | .arrayV vs => some (.arr (toPlainJSONRecList vs))
  | .mapV fs => some (.obj (toPlainJSONRecFields fs))
  | .unknown _ _ => none

def toPlainJSONRecList : List WireValue → List Json
  | [] => []
  | v :: vs =>
    match toPlainJSONRec v with
    | some j => j :: toPlainJSONRecList vs
    | none => toPlainJSONRecList vs

def toPlainJSONRecFields : List (String × WireValue) → List (String × Json)
  | [] => []
  | (k, v) :: fs =>
    match toPlainJSONRec v with
    | some j => (k, j) :: toPlainJSONRecFields fs
    | none => toPlainJSONRecFields fs

end

/-- Modelled from the spec (§4.1): the plain-JSON projection of a whole
payload, recursing into every field (the claimed behavior of the
converter). -/
def plainPayloadJSON (payload : Option (List (String × WireValue))) : Json :=
  match payload with
  | none => Json.obj []
  | some fs => Json.obj (toPlainJSONRecFields fs)

/-- A mapped device request: HTTP method, WLED endpoint, and the request
body (`none` for the GET intents, which send no body). -/
structure WledRequest where
  method : String
  endpoint : String
  body : Option Json
deriving Repr

/-- The pull bridge's intent dispatch (esp32-bridge main.cpp, lines
355-377): string-keyed branching on the command `type`, with a default
arm mapping unrecognized intents to a state update. Note `setConfig` is
NOT among the `/json/cfg` intents in this variant. -/
def mapIntentPull (commandType : String)
    (payload : Option (List (String × WireValue))) : WledRequest :=
  if commandType == "getState" then
    { method := "GET", endpoint := "/json/state", body := none }
  else if commandType == "getInfo" then
    { method := "GET", endpoint := "/json/info", body := none }
  else if commandType == "setState" || commandType == "applyJson" ||
          commandType == "renameSegment" || commandType == "applyToSegments" then
    { method := "POST", endpoint := "/json/state",
      body := some (convertFirestorePayloadToJson payload) }
  else if commandType == "applyConfig" || commandType == "configureSyncReceiver" ||
          commandType == "configureSyncSender" then
    { method := "POST", endpoint := "/json/cfg",
      body := some (convertFirestorePayloadToJson payload) }
  else
    { method := "POST", endpoint := "/json/state",
      body := some (convertFirestorePayloadToJson payload) }

/-- The push bridge's action dispatch (esp32-mqtt-bridge main.cpp, lines
348-364): the push wire format is plain JSON, so the body is the payload
object itself. Note `renameSegment`, `applyToSegments`,
`configureSyncReceiver` and `configureSyncSender` have no arm in this
variant and fall to the default state-update mapping. -/
def mapIntentPush (action : String) (payload : Json) : WledRequest :=
  if action == "getState" then
    { method := "GET", endpoint := "/json/state", body := none }
  else if action == "getInfo" then
    { method := "GET", endpoint := "/json/info", body := none }
  else if action == "setState" || action == "applyJson" then
    { method := "POST", endpoint := "/json/state", body := some payload }
  else if action == "setConfig" || action == "applyConfig" then
    { method := "POST", endpoint := "/json/cfg", body := some payload }
  else
    { method := "POST", endpoint := "/json/state", body := some payload }

/-- The boundary behavior of one HTTP attempt against the local device:
the client library's return code (`> 0`: an HTTP status from the device;
`<= 0`: a transport error such as connection refused or read timeout)
and the response body text when one was received. -/
structure HttpOutcome where
  httpCode : Int
  body : String
deriving Repr

/-- The HTTP client library's rendering of a negative return code
(mirrors the Arduino-ESP32 HTTPClient error table, the external
collaborator both bridges call). -/
def errorToString (code : Int) : String :=
  if code == -1 then "connection refused"
  else if code == -2 then "send header failed"
  else if code == -3 then "send payload failed"
  else if code == -4 then "not connected"
  else if code == -5 then "connection lost"
  else if code == -6 then "no stream"
  else if code == -7 then "no HTTP server"
  else if code == -8 then "too less ram"
  else if code == -9 then "encoding"
  else if code == -10 then "stream write"
  else if code == -11 then "read Timeout"
  else ""

/-- `makeWledRequest` (esp32-bridge main.cpp, lines 464-507; the push
variant at esp32-mqtt-bridge lines 405-444 is the same logic): exactly
one HTTP attempt; a 200 status returns the body verbatim, any other
positive status returns the sentinel `"ERROR: HTTP <code>"`, a transport
failure returns `"ERROR: " ++ errorToString code`. Errors travel in-band
through the returned string. -/
def makeWledRequest (req : WledRequest) (outcome : HttpOutcome) : String :=
  if req.method == "GET" || req.method == "POST" then
    if outcome.httpCode > 0 then
      if outcome.httpCode == 200 then outcome.body
      else "ERROR: HTTP " ++ toString outcome.httpCode
    else "ERROR: " ++ errorToString outcome.httpCode
  else "ERROR: Unsupported method"

/-- `String.startsWith` at the character level (the byte-level
`substrEq` of the standard library agrees with the character-level
check on well-formed strings); models the firmware's in-band
`response.startsWith("ERROR:")` sentinel test. -/
def strStartsWith (s p : String) : Bool :=
  p.data.isPrefixOf s.data

/-- One call to `updateCommandStatus`: the status string written, the
error detail (empty when none), and the captured device response (the
`result` pointer; `none` when null). -/
structure StatusWrite where
  status : String
  error : String
  result : Option String
deriving Repr, DecidableEq

/-- A status string is terminal when it is one of the two terminal
states of the command state machine. -/
def isTerminalStatus (s : String) : Bool :=
  s == "completed" || s == "failed"

/-- The fields `updateCommandStatus` (esp32-bridge main.cpp, lines
513-547) actually sets in the patch's update content: `status` always,
`completedAt` for the terminal statuses, `error` when non-empty,
`result` when a response was captured. -/
def updateContentFields (w : StatusWrite) : List String :=
  ["status"]
    ++ (if w.status == "completed" || w.status == "failed" || w.status == "timeout"
        then ["completedAt"] else [])
    ++ (if w.error == "" then [] else ["error"])
    ++ (match w.result with | some _ => ["result"] | none => [])

/-- The field mask `updateCommandStatus` passes to `patchDocument`
(esp32-bridge main.cpp, line 541): the constant string
`"status,completedAt,error,result"`, split here at the commas. It does
not depend on which fields the write actually sets. -/
def updateMask (_ : StatusWrite) : List String :=
  ["status", "completedAt", "error", "result"]

/-- The command fields `executeCommand` extracts from a Firestore
document: `type/stringValue`, `controllerIp/stringValue`, and
`payload/mapValue/fields` (each `none` when the path is absent). -/
structure CommandFields where
  commandType : Option String
  controllerIp : Option String
  payload : Option (List (String × WireValue))
deriving Repr

/-- The observable effects of executing one command: the ordered status
writes sent to Firestore and the device requests issued. -/
structure ExecEffects where
  statusWrites : List StatusWrite
  deviceCalls : List WledRequest
deriving Repr

/-- `executeCommand` (esp32-bridge main.cpp, lines 302-401) as an effect
trace. An empty `controllerIp` terminalizes the command immediately with
no device call and no `executing` write; otherwise the command is marked
`executing`, exactly one device request is made, and the in-band
`"ERROR:"` sentinel on the response decides `failed` versus `completed`
(with the raw response captured as `result`). -/
def executeCommand (fields : CommandFields) (outcome : HttpOutcome) : ExecEffects :=
  let controllerIp := fields.controllerIp.getD ""
  let commandType := fields.commandType.getD ""
  if controllerIp == "" then
    { statusWrites := [{ status := "failed", error := "No controller IP specified",
                         result := none }],
      deviceCalls := [] }
  else
    let req := mapIntentPull commandType fields.payload
    let response := makeWledRequest req outcome
    if strStartsWith response "ERROR:" then
      { statusWrites := [{ status := "executing", error := "", result := none },
                         { status := "failed", error := response, result := none }],
        deviceCalls := [req] }
    else
      { statusWrites := [{ status := "executing", error := "", result := none },
                         { status := "completed", error := "", result := some response }],
        deviceCalls := [req] }

/-- Configured batch cap (esp32-bridge config.h: `MAX_COMMANDS_PER_POLL`). -/
def MAX_COMMANDS_PER_POLL : Nat := 5

/-- The structured query the pull bridge builds each cycle
(esp32-bridge main.cpp, lines 234-241). -/
structure StructuredQuery where
  collectionId : String
  filterField : String
  filterOp : String
  filterValue : String
  orderByField : String
  orderByDirection : String
  limit : Nat
deriving Repr, DecidableEq

/-- `pollCommands`' query document: status == "pending", ordered by
createdAt ascending, limit `MAX_COMMANDS_PER_POLL`. -/
def pollQuery : StructuredQuery :=
  { collectionId := "commands"
    filterField := "status"
    filterOp := "EQUAL"
    filterValue := "pending"
    orderByField := "createdAt"
    orderByDirection := "ASCENDING"
    limit := MAX_COMMANDS_PER_POLL }

/-- One entry of a `runQuery` response: the document path
(`document/name`) and the document fields (`document/fields`), each
possibly absent. -/
structure QueryResult where
  docName : Option String
  docFields : Option CommandFields
deriving Repr

/-- Command id extraction in `pollCommands` (esp32-bridge main.cpp,
lines 274-275): everything after the last slash of the document path
(the whole path when it has no slash). -/
def extractCommandId (fullPath : String) : String :=
  (fullPath.splitOn "/").getLastD ""

/-- The body of `pollCommands`' per-result loop (esp32-bridge main.cpp,
lines 263-285): a result missing `document/name` or `document/fields`
produces no effects; otherwise the command id is extracted from the
document path and the command executed. `outcome` gives the device
boundary behavior for each executed command, keyed by command id. -/
def pollResultEffects (outcome : String → HttpOutcome) (r : QueryResult) :
    Option (String × ExecEffects) :=
  match r.docName with
  | none => none
  | some fullPath =>
    match r.docFields with
    | none => none
    | some fields =>
      some (extractCommandId fullPath,
            executeCommand fields (outcome (extractCommandId fullPath)))

/-- The per-result processing loop of `pollCommands` as an effect trace:
each query result is handled in order by `pollResultEffects`. -/
def pollCycle (results : List QueryResult) (outcome : String → HttpOutcome) :
    List (String × ExecEffects) :=
  results.filterMap (pollResultEffects outcome)

/-- A message arriving on the push bridge's command channel: either its
body fails JSON parsing, or it parsed to a document with an optional
`action` member and a `payload` member. -/
inductive MqttMessage where
  | malformed : MqttMessage
  | command : Option String → Json → MqttMessage
deriving Repr

/-- The observable effects of processing one push-mode message: the
device requests issued and the bodies published to the status channel
(JSON text modelled as its parse tree; a raw device response passed
through verbatim is modelled as `Json.str`). -/
structure PushEffects where
  deviceCalls : List WledRequest
  statusPublishes : List Json
deriving Repr

/-- `processCommand` (esp32-mqtt-bridge main.cpp, lines 323-399) as an
effect trace. A parse failure publishes the literal error body and makes
no device request; otherwise the `action` member defaults to
`"setState"`, one device request is made, and either the raw response or
an `error`/`action` object is published. -/
def processCommand (msg : MqttMessage) (outcome : HttpOutcome) : PushEffects :=
  match msg with
  | .malformed =>
    { deviceCalls := []
      statusPublishes := [Json.obj [("error", Json.str "JSON parse error")]] }
  | .command actionOpt payload =>
    let action := actionOpt.getD "setState"
    let req := mapIntentPush action payload
    let response := makeWledRequest req outcome
    if strStartsWith response "ERROR:" then
      { deviceCalls := [req]
        statusPublishes := [Json.obj [("error", Json.str response),
                                      ("action", Json.str action)]] }
    else
      { deviceCalls := [req], statusPublishes := [Json.str response] }

/-! ## Helper lemmas -/

theorem isPrefixOf_append_self (l s : List Char) : l.isPrefixOf (l ++ s) = true := by
  induction l with
  | nil => simp
  | cons a as ih => simp

theorem strStartsWith_append (p s : String) : strStartsWith (p ++ s) p = true := by
  simp only [strStartsWith, String.data_append]
  exact isPrefixOf_append_self _ _

theorem strStartsWith_errorHTTP (x : String) :
    strStartsWith ("ERROR: HTTP " ++ x) "ERROR:" = true := by
  have h : ("ERROR: HTTP ").data = ("ERROR:").data ++ (" HTTP ").data := by decide
  simp only [strStartsWith, String.data_append, h, List.append_assoc]
  exact isPrefixOf_append_self _ _

theorem strStartsWith_errorPlain (x : String) :
    strStartsWith ("ERROR: " ++ x) "ERROR:" = true := by
  have h : ("ERROR: ").data = ("ERROR:").data ++ (" ").data := by decide
  simp only [strStartsWith, String.data_append, h, List.append_assoc]
  exact isPrefixOf_append_self _ _

theorem mapIntentPull_method (ty : String) (p : Option (List (String × WireValue))) :
    (mapIntentPull ty p).method = "GET" ∨ (mapIntentPull ty p).method = "POST" := by
  unfold mapIntentPull
  repeat' split
  all_goals simp

/-! ## Claim theorems -/

/-- C4: a command whose target (`controllerIp`) is empty terminalizes
directly to `failed` with the error naming the missing controller IP;
no device call is made and no intermediate `executing` status is
written. -/
theorem executeCommand_missing_target (fields : CommandFields) (outcome : HttpOutcome)
    (h : fields.controllerIp.getD "" = "") :
    executeCommand fields outcome =
      { statusWrites := [{ status := "failed", error := "No controller IP specified",
                           result := none }],
        deviceCalls := [] } := by
  simp [executeCommand, h]

/-- Witness for C4 at the spec's own scenario: intent `setState`, empty
target. -/
theorem executeCommand_missing_target_witness :
    (CommandFields.mk (some "setState") (some "") (some [("on", .boolV true)])).controllerIp.getD "" = "" ∧
    executeCommand (CommandFields.mk (some "setState") (some "") (some [("on", .boolV true)]))
        (HttpOutcome.mk 200 "ok") =
      { statusWrites := [{ status := "failed", error := "No controller IP specified",
                           result := none }],
        deviceCalls := [] } :=
  ⟨rfl, executeCommand_missing_target _ _ rfl⟩

/-- C5: per cycle the engine writes, for one command, a status sequence
that is exactly `[failed]` (empty target), `[executing, completed]` or
`[executing, failed]`: together with the initial remote `pending` this
is a strict-prefix path of `Pending, Executing, {Completed | Failed}`,
with exactly one terminal write, occurring last, so no write reverses a
terminal state. -/
theorem executeCommand_status_monotone (fields : CommandFields) (outcome : HttpOutcome) :
    ((executeCommand fields outcome).statusWrites.map StatusWrite.status = ["failed"] ∨
     (executeCommand fields outcome).statusWrites.map StatusWrite.status = ["executing", "completed"] ∨
     (executeCommand fields outcome).statusWrites.map StatusWrite.status = ["executing", "failed"]) ∧
    (((executeCommand fields outcome).statusWrites.map StatusWrite.status).filter isTerminalStatus).length = 1 ∧
    (∃ t, ((executeCommand fields outcome).statusWrites.map StatusWrite.status).getLast? = some t ∧
      isTerminalStatus t = true) := by
  by_cases hip : (fields.controllerIp.getD "" == "") = true
  · refine ⟨Or.inl ?_, ?_, "failed", ?_, ?_⟩ <;> simp [executeCommand, hip, isTerminalStatus]
  · by_cases hresp : strStartsWith
        (makeWledRequest (mapIntentPull (fields.commandType.getD "") fields.payload) outcome)
        "ERROR:" = true
    · refine ⟨Or.inr (Or.inr ?_), ?_, "failed", ?_, ?_⟩ <;>
        simp [executeCommand, hip, hresp, isTerminalStatus]
    · refine ⟨Or.inr (Or.inl ?_), ?_, "completed", ?_, ?_⟩ <;>
        simp [executeCommand, hip, hresp, isTerminalStatus]

/-- C9: a push-mode message whose body fails JSON parsing produces no
device request and exactly one status publish, the body
`{"error": "JSON parse error"}` with no `action` member; a well-formed
message with no `action` member is processed exactly as if the action
were `setState`. -/
theorem processCommand_parse_error_and_default_action (outcome : HttpOutcome) (payload : Json) :
    processCommand .malformed outcome =
      { deviceCalls := []
        statusPublishes := [Json.obj [("error", Json.str "JSON parse error")]] } ∧
    processCommand (.command none payload) outcome =
      processCommand (.command (some "setState") payload) outcome :=
  ⟨rfl, rfl⟩

/-- C7: a payload field carrying an unrecognized value tag is skipped:
the conversion of the whole payload equals the conversion with that
field removed (all sibling fields, before and after it, convert
normally, and the unrecognized key is absent from the output), and
command execution proceeds identically, so no fault reaches the
engine. -/
theorem unknown_tag_field_skipped (pre post : List (String × WireValue))
    (k tag : String) (raw : Json) :
    convertFirestorePayloadToJson (some (pre ++ (k, .unknown tag raw) :: post)) =
      convertFirestorePayloadToJson (some (pre ++ post)) ∧
    (∀ ty ip outcome,
      executeCommand ⟨ty, ip, some (pre ++ (k, .unknown tag raw) :: post)⟩ outcome =
        executeCommand ⟨ty, ip, some (pre ++ post)⟩ outcome) := by
  have hconv : convertFirestorePayloadToJson (some (pre ++ (k, .unknown tag raw) :: post)) =
      convertFirestorePayloadToJson (some (pre ++ post)) := by
    simp [convertFirestorePayloadToJson, List.filterMap_append, List.filterMap_cons,
      convertField]
  refine ⟨hconv, fun ty ip outcome => ?_⟩
  simp only [executeCommand, mapIntentPull]
  rw [hconv]

/-- C10: a pull query result that lacks a `document/name` entry or a
`document/fields` entry is skipped silently — it contributes no device
request and no status write-back — while the remaining results of the
batch are processed in order. -/
theorem pollCycle_skips_malformed_results (pre post : List QueryResult) (r : QueryResult)
    (outcome : String → HttpOutcome) (h : r.docName = none ∨ r.docFields = none) :
    pollCycle (pre ++ r :: post) outcome = pollCycle (pre ++ post) outcome ∧
    pollCycle [r] outcome = [] := by
  have hnone : pollResultEffects outcome r = none := by
    rcases h with h | h
    · unfold pollResultEffects; rw [h]
    · unfold pollResultEffects; rw [h]; cases r.docName <;> rfl
  constructor
  · simp [pollCycle, List.filterMap_append, List.filterMap_cons, hnone]
  · simp [pollCycle, List.filterMap_cons, hnone]

/-- Witness for C10: a result with fields but no document name is
skipped, and the well-formed results around it still execute. -/
theorem pollCycle_skips_malformed_results_witness :
    ((QueryResult.mk none (some (CommandFields.mk (some "getState") (some "10.0.0.5") none))).docName = none ∨
     (QueryResult.mk none (some (CommandFields.mk (some "getState") (some "10.0.0.5") none))).docFields = none) ∧
    (pollCycle [QueryResult.mk (some "users/u/commands/c1") (some (CommandFields.mk (some "getState") (some "10.0.0.5") none)),
                QueryResult.mk none (some (CommandFields.mk (some "getState") (some "10.0.0.5") none))]
        (fun _ => HttpOutcome.mk 200 "ok") =
      pollCycle [QueryResult.mk (some "users/u/commands/c1") (some (CommandFields.mk (some "getState") (some "10.0.0.5") none))]
        (fun _ => HttpOutcome.mk 200 "ok") ∧
     pollCycle [QueryResult.mk none (some (CommandFields.mk (some "getState") (some "10.0.0.5") none))]
        (fun _ => HttpOutcome.mk 200 "ok") = []) :=
  ⟨Or.inl rfl,
   pollCycle_skips_malformed_results
     [QueryResult.mk (some "users/u/commands/c1") (some (CommandFields.mk (some "getState") (some "10.0.0.5") none))]
     [] _ _ (Or.inl rfl)⟩

/-- C8: the structured query the pull cycle sends carries the configured
limit `MAX_COMMANDS_PER_POLL`, and whenever the remote store honors that
limit (returns at most `limit` results), the cycle executes at most
`MAX_COMMANDS_PER_POLL` commands, regardless of how many pending
commands exist remotely. -/
theorem pollCycle_batch_bound (results : List QueryResult) (outcome : String → HttpOutcome)
    (h : results.length ≤ pollQuery.limit) :
    pollQuery.limit = MAX_COMMANDS_PER_POLL ∧
    (pollCycle results outcome).length ≤ MAX_COMMANDS_PER_POLL := by
  refine ⟨rfl, ?_⟩
  calc (pollCycle results outcome).length
      ≤ results.length := List.length_filterMap_le _ _
    _ ≤ MAX_COMMANDS_PER_POLL := h

/-- Witness for C8 on a concrete two-result batch. -/
theorem pollCycle_batch_bound_witness :
    ([QueryResult.mk (some "users/u/commands/c1") (some (CommandFields.mk (some "getState") (some "10.0.0.5") none)),
      QueryResult.mk (some "users/u/commands/c2") (some (CommandFields.mk (some "setState") (some "10.0.0.6") none))] :
       List QueryResult).length ≤ pollQuery.limit ∧
    (pollQuery.limit = MAX_COMMANDS_PER_POLL ∧
     (pollCycle [QueryResult.mk (some "users/u/commands/c1") (some (CommandFields.mk (some "getState") (some "10.0.0.5") none)),
                 QueryResult.mk (some "users/u/commands/c2") (some (CommandFields.mk (some "setState") (some "10.0.0.6") none))]
        (fun _ => HttpOutcome.mk 200 "ok")).length ≤ MAX_COMMANDS_PER_POLL) :=
  ⟨by decide,
   pollCycle_batch_bound _ _ (by decide)⟩

/-- C6 counterexample: the `executing` write-back — a write the engine
actually performs — changes only `status`, yet the field mask passed to
`patchDocument` also names `completedAt`: the mask does not name only
the fields being changed. -/
theorem updateMask_names_unchanged_field :
    StatusWrite.mk "executing" "" none ∈
      (executeCommand (CommandFields.mk (some "getState") (some "10.0.0.5") none)
        (HttpOutcome.mk 200 "ok")).statusWrites ∧
    "completedAt" ∈ updateMask (StatusWrite.mk "executing" "" none) ∧
    "completedAt" ∉ updateContentFields (StatusWrite.mk "executing" "" none) := by
  refine ⟨?_, ?_, ?_⟩ <;> decide

/-- C6 (amended): every status write-back passes the same fixed field
mask `status,completedAt,error,result`, independent of the transition;
the update content itself sets `status` always, `completedAt` exactly on
the terminal statuses, `error` exactly when the error text is non-empty,
and `result` exactly when a device response was captured. -/
theorem updateCommandStatus_mask_and_content (w : StatusWrite) :
    updateMask w = ["status", "completedAt", "error", "result"] ∧
    "status" ∈ updateContentFields w ∧
    ("completedAt" ∈ updateContentFields w ↔
      (w.status = "completed" ∨ w.status = "failed" ∨ w.status = "timeout")) ∧
    ("error" ∈ updateContentFields w ↔ w.error ≠ "") ∧
    ("result" ∈ updateContentFields w ↔ w.result ≠ none) := by
  obtain ⟨s, e, r⟩ := w
  cases r <;>
    (refine ⟨rfl, ?_, ?_, ?_, ?_⟩ <;>
      (simp only [updateContentFields]; split_ifs with h1 h2 <;> simp_all <;> tauto))

/-- C2 counterexample: in the pull bridge the intent `setConfig` takes
the default arm — `POST /json/state` — not the `POST /json/cfg` arm the
claim's table assigns it. -/
theorem mapIntentPull_setConfig_goes_to_state_endpoint :
    (mapIntentPull "setConfig" none).method = "POST" ∧
    (mapIntentPull "setConfig" none).endpoint = "/json/state" ∧
    (mapIntentPull "setConfig" none).endpoint ≠ "/json/cfg" :=
  ⟨rfl, rfl, by decide⟩

/-- C2 (amended): both dispatch tables, as the code has them. In the
pull bridge `setConfig` is not a recognized intent and falls to the
default `POST /json/state`; in the push bridge `renameSegment`,
`applyToSegments`, `configureSyncReceiver` and `configureSyncSender`
are not recognized and fall to the default `POST /json/state`. The GET
intents carry no body, every POST intent carries the bridge's converted
payload, and unrecognized intents take the default with no failure
path. -/
theorem mapIntent_dispatch_tables (p : Option (List (String × WireValue))) (q : Json)
    (ty action : String)
    (hty : ty ∉ ["getState", "getInfo", "setState", "applyJson", "renameSegment",
                 "applyToSegments", "applyConfig", "configureSyncReceiver",
                 "configureSyncSender"])
    (ha : action ∉ ["getState", "getInfo", "setState", "applyJson", "setConfig",
                    "applyConfig"]) :
    mapIntentPull "getState" p = ⟨"GET", "/json/state", none⟩ ∧
    mapIntentPull "getInfo" p = ⟨"GET", "/json/info", none⟩ ∧
    mapIntentPull "setState" p = ⟨"POST", "/json/state", some (convertFirestorePayloadToJson p)⟩ ∧
    mapIntentPull "applyJson" p = ⟨"POST", "/json/state", some (convertFirestorePayloadToJson p)⟩ ∧
    mapIntentPull "renameSegment" p = ⟨"POST", "/json/state", some (convertFirestorePayloadToJson p)⟩ ∧
    mapIntentPull "applyToSegments" p = ⟨"POST", "/json/state", some (convertFirestorePayloadToJson p)⟩ ∧
    mapIntentPull "applyConfig" p = ⟨"POST", "/json/cfg", some (convertFirestorePayloadToJson p)⟩ ∧
    mapIntentPull "configureSyncReceiver" p = ⟨"POST", "/json/cfg", some (convertFirestorePayloadToJson p)⟩ ∧
    mapIntentPull "configureSyncSender" p = ⟨"POST", "/json/cfg", some (convertFirestorePayloadToJson p)⟩ ∧
    mapIntentPull "setConfig" p = ⟨"POST", "/json/state", some (convertFirestorePayloadToJson p)⟩ ∧
    mapIntentPull ty p = ⟨"POST", "/json/state", some (convertFirestorePayloadToJson p)⟩ ∧
    mapIntentPush "getState" q = ⟨"GET", "/json/state", none⟩ ∧
    mapIntentPush "getInfo" q = ⟨"GET", "/json/info", none⟩ ∧
    mapIntentPush "setState" q = ⟨"POST", "/json/state", some q⟩ ∧
    mapIntentPush "applyJson" q = ⟨"POST", "/json/state", some q⟩ ∧
    mapIntentPush "setConfig" q = ⟨"POST", "/json/cfg", some q⟩ ∧
    mapIntentPush "applyConfig" q = ⟨"POST", "/json/cfg", some q⟩ ∧
    mapIntentPush action q = ⟨"POST", "/json/state", some q⟩ := by
  simp only [List.mem_cons, List.not_mem_nil, or_false, not_or] at hty ha
  obtain ⟨t1, t2, t3, t4, t5, t6, t7, t8, t9⟩ := hty
  obtain ⟨a1, a2, a3, a4, a5, a6⟩ := ha
  refine ⟨rfl, rfl, rfl, rfl, rfl, rfl, rfl, rfl, rfl, rfl, ?_,
          rfl, rfl, rfl, rfl, rfl, rfl, ?_⟩
  · simp [mapIntentPull, t1, t2, t3, t4, t5, t6, t7, t8, t9]
  · simp [mapIntentPush, a1, a2, a3, a4, a5, a6]

/-- Witness for C2 (amended) at an unrecognized intent. -/
theorem mapIntent_dispatch_tables_witness :
    (("blorp" : String) ∉ ["getState", "getInfo", "setState", "applyJson", "renameSegment",
                           "applyToSegments", "applyConfig", "configureSyncReceiver",
                           "configureSyncSender"]) ∧
    (("blorp" : String) ∉ ["getState", "getInfo", "setState", "applyJson", "setConfig",
                           "applyConfig"]) ∧
    mapIntentPull "blorp" none = ⟨"POST", "/json/state", some (convertFirestorePayloadToJson none)⟩ ∧
    mapIntentPush "blorp" Json.null = ⟨"POST", "/json/state", some Json.null⟩ := by
  have h := mapIntent_dispatch_tables none Json.null "blorp" "blorp" (by decide) (by decide)
  exact ⟨by decide, by decide,
    h.2.2.2.2.2.2.2.2.2.2.1,
    h.2.2.2.2.2.2.2.2.2.2.2.2.2.2.2.2.2⟩

/-- C3 counterexample: HTTP 204 is a 2xx success status, yet the engine
terminalizes the command `failed` (the code accepts only 200), with the
status code recorded in the error text. -/
theorem executeCommand_http204_fails :
    ((200 : Int) ≤ 204 ∧ (204 : Int) < 300) ∧
    (executeCommand (CommandFields.mk (some "getState") (some "10.0.0.5") none)
        (HttpOutcome.mk 204 "ok")).statusWrites.map StatusWrite.status =
      ["executing", "failed"] ∧
    (executeCommand (CommandFields.mk (some "getState") (some "10.0.0.5") none)
        (HttpOutcome.mk 204 "ok")).statusWrites.map StatusWrite.error =
      ["", "ERROR: HTTP 204"] := by
  refine ⟨by decide, ?_, ?_⟩ <;> decide

/-- C3 (amended): for every command with a non-empty target and every
device outcome the engine makes exactly one device call; it
terminalizes `completed` — capturing the response as result — exactly
when the device returns HTTP status 200 AND the response body does not
itself begin with the in-band sentinel `"ERROR:"` (a 200 response whose
body begins with the sentinel is misclassified `failed`, with the body
as error text); any other positive status (including other 2xx codes)
terminalizes `failed` with the status code in the error text, and a
transport failure terminalizes `failed` with the client library's
normalized marker (connection refused, read Timeout, ...). -/
theorem executeCommand_terminal_outcomes (fields : CommandFields) (outcome : HttpOutcome)
    (hip : ¬ fields.controllerIp.getD "" = "") :
    (executeCommand fields outcome).deviceCalls =
      [mapIntentPull (fields.commandType.getD "") fields.payload] ∧
    ((executeCommand fields outcome).statusWrites =
        [⟨"executing", "", none⟩, ⟨"completed", "", some outcome.body⟩] ↔
      (outcome.httpCode = 200 ∧ strStartsWith outcome.body "ERROR:" = false)) ∧
    (outcome.httpCode = 200 → strStartsWith outcome.body "ERROR:" = true →
      (executeCommand fields outcome).statusWrites =
        [⟨"executing", "", none⟩, ⟨"failed", outcome.body, none⟩]) ∧
    (0 < outcome.httpCode → outcome.httpCode ≠ 200 →
      (executeCommand fields outcome).statusWrites =
        [⟨"executing", "", none⟩,
         ⟨"failed", "ERROR: HTTP " ++ toString outcome.httpCode, none⟩]) ∧
    (outcome.httpCode ≤ 0 →
      (executeCommand fields outcome).statusWrites =
        [⟨"executing", "", none⟩,
         ⟨"failed", "ERROR: " ++ errorToString outcome.httpCode, none⟩]) := by
  have hm := mapIntentPull_method (fields.commandType.getD "") fields.payload
  have hreq : ((mapIntentPull (fields.commandType.getD "") fields.payload).method == "GET" ||
      (mapIntentPull (fields.commandType.getD "") fields.payload).method == "POST") = true := by
    rcases hm with h | h <;> simp [h]
  have hipb : (fields.controllerIp.getD "" == "") = false := by
    simp [hip]
  by_cases hpos : 0 < outcome.httpCode
  · by_cases h200 : outcome.httpCode = 200
    · have hrespval : makeWledRequest (mapIntentPull (fields.commandType.getD "") fields.payload)
          outcome = outcome.body := by
        simp [makeWledRequest, hreq, h200]
      by_cases hsent : strStartsWith outcome.body "ERROR:" = true
      · have hwrites : (executeCommand fields outcome).statusWrites =
            [⟨"executing", "", none⟩, ⟨"failed", outcome.body, none⟩] := by
          simp [executeCommand, hipb, hrespval, hsent]
        have hcalls : (executeCommand fields outcome).deviceCalls =
            [mapIntentPull (fields.commandType.getD "") fields.payload] := by
          simp [executeCommand, hipb, hrespval, hsent]
        refine ⟨hcalls, ⟨?_, ?_⟩, fun _ _ => hwrites,
                fun _ hne => absurd h200 hne, fun hle => absurd hpos (by omega)⟩
        · intro heq
          rw [hwrites] at heq
          simp at heq
        · rintro ⟨-, hb⟩
          simp [hsent] at hb
      · have hsentf : strStartsWith outcome.body "ERROR:" = false := by
          cases hx : strStartsWith outcome.body "ERROR:" <;> simp_all
        have hwrites : (executeCommand fields outcome).statusWrites =
            [⟨"executing", "", none⟩, ⟨"completed", "", some outcome.body⟩] := by
          simp [executeCommand, hipb, hrespval, hsentf]
        have hcalls : (executeCommand fields outcome).deviceCalls =
            [mapIntentPull (fields.commandType.getD "") fields.payload] := by
          simp [executeCommand, hipb, hrespval, hsentf]
        refine ⟨hcalls, ⟨fun _ => ⟨h200, hsentf⟩, fun _ => hwrites⟩,
                fun _ hs => absurd hs (by simp [hsentf]),
                fun _ hne => absurd h200 hne, fun hle => absurd hpos (by omega)⟩
    · have hrespval : makeWledRequest (mapIntentPull (fields.commandType.getD "") fields.payload)
          outcome = "ERROR: HTTP " ++ toString outcome.httpCode := by
        simp [makeWledRequest, hreq, hpos, h200]
      have hwrites : (executeCommand fields outcome).statusWrites =
          [⟨"executing", "", none⟩,
           ⟨"failed", "ERROR: HTTP " ++ toString outcome.httpCode, none⟩] := by
        simp [executeCommand, hipb, hrespval, strStartsWith_errorHTTP]
      have hcalls : (executeCommand fields outcome).deviceCalls =
          [mapIntentPull (fields.commandType.getD "") fields.payload] := by
        simp [executeCommand, hipb, hrespval, strStartsWith_errorHTTP]
      refine ⟨hcalls, ⟨?_, ?_⟩, fun hc _ => absurd hc h200,
              fun _ _ => hwrites, fun hle => absurd hpos (by omega)⟩
      · intro heq
        rw [hwrites] at heq
        simp at heq
      · rintro ⟨hc, -⟩
        exact absurd hc h200
  · have hle : outcome.httpCode ≤ 0 := by omega
    have hrespval : makeWledRequest (mapIntentPull (fields.commandType.getD "") fields.payload)
        outcome = "ERROR: " ++ errorToString outcome.httpCode := by
      simp [makeWledRequest, hreq, hpos]
    have hwrites : (executeCommand fields outcome).statusWrites =
        [⟨"executing", "", none⟩,
         ⟨"failed", "ERROR: " ++ errorToString outcome.httpCode, none⟩] := by
      simp [executeCommand, hipb, hrespval, strStartsWith_errorPlain]
    have hcalls : (executeCommand fields outcome).deviceCalls =
        [mapIntentPull (fields.commandType.getD "") fields.payload] := by
      simp [executeCommand, hipb, hrespval, strStartsWith_errorPlain]
    have hn200 : ¬ outcome.httpCode = 200 := by omega
    refine ⟨hcalls, ⟨?_, ?_⟩, fun hc _ => absurd hc hn200,
            fun hposc _ => absurd hposc hpos, fun _ => hwrites⟩
    · intro heq
      rw [hwrites] at heq
      simp at heq
    · rintro ⟨hc, -⟩
      exact absurd hc hn200

/-- Witness for C3 (amended): the spec's happy-path scenario, a
`getState` command answered with HTTP 200 and a sentinel-free body. -/
theorem executeCommand_terminal_outcomes_witness :
    (¬ (CommandFields.mk (some "getState") (some "10.0.0.5") none).controllerIp.getD "" = "") ∧
    (executeCommand (CommandFields.mk (some "getState") (some "10.0.0.5") none)
        (HttpOutcome.mk 200 "ok")).statusWrites =
      [⟨"executing", "", none⟩, ⟨"completed", "", some "ok"⟩] := by
  have h := executeCommand_terminal_outcomes
    (CommandFields.mk (some "getState") (some "10.0.0.5") none)
    (HttpOutcome.mk 200 "ok") (by decide)
  exact ⟨by decide, h.2.1.mpr ⟨rfl, by decide⟩⟩

/-- C1: on an array-of-maps payload field (a device-segment list) the
pull bridge's converter emits the field still in wire format — the
`arrayValue` contents pass through untranslated — whereas the recursive
tag-erasing projection the spec mandates yields a plain array of plain
objects; the two disagree, so the conversion is not fully recursive or
lossless at the plain-JSON level. -/
theorem convertFirestorePayload_passthrough_on_array_of_maps :
    convertFirestorePayloadToJson (some [("seg", .arrayV [.mapV [("id", .intV 0)]])]) =
      Json.obj [("seg", Json.obj [("values", Json.arr
        [Json.obj [("mapValue", Json.obj [("fields",
           Json.obj [("id", Json.obj [("integerValue", Json.str "0")])])])]])])] ∧
    plainPayloadJSON (some [("seg", .arrayV [.mapV [("id", .intV 0)]])]) =
      Json.obj [("seg", Json.arr [Json.obj [("id", Json.num 0)]])] ∧
    convertFirestorePayloadToJson (some [("seg", .arrayV [.mapV [("id", .intV 0)]])]) ≠
      plainPayloadJSON (some [("seg", .arrayV [.mapV [("id", .intV 0)]])]) := by
  refine ⟨rfl, rfl, ?_⟩
  intro h
  simp [convertFirestorePayloadToJson, plainPayloadJSON, convertField,
    toPlainJSONRecFields, toPlainJSONRec, toPlainJSONRecList, wireEncodeList,
    wireEncode, wireEncodeFields] at h

end Lumina
